import Mathlib

/-
Verification of the byte-buffer container in include/sqrat/sqratBytecode.h
(class Sqrat::Bytecode and the two callback adapters BytecodeReader and
BytecodeWriter).

Embedding conventions:
* A byte is modelled as a `Nat`; `m_data` is modelled by `Alloc`:
  `null` is a null pointer, `mem bs` is a valid heap allocation whose
  defined contents are exactly the list `bs` (so the allocation size is
  `bs.length`), and `dangling` is a pointer that was passed to `free`
  but not set to null afterwards (its pointee is indeterminate).
* `m_size` and `m_readpos` are `size_t` fields, modelled as `Nat`.
* Operations return `Option`: `none` marks paths on which the C code has
  undefined behavior (memcpy/realloc/fwrite on freed or out-of-bounds
  memory, double free); `some` carries the C return value and the
  post-state.
* File I/O is modelled by explicit parameters: for LoadFromFile the file
  is `Option (List Nat)` (`none` = fopen fails, `some f` = the file's
  bytes, with ftell giving `f.length` and fread reading the whole file);
  for SaveToFile, `openOk : Bool` is whether fopen succeeds and
  `bytesWritten : Nat` is what fwrite reports.
* SQRESULT is modelled abstractly by its two values SQ_OK / SQ_ERROR;
  SQInteger is modelled as `Int` (the -1 sentinel of ReadData is an
  `Int`), and the cast `static_cast<size_t>` of an SQInteger reduces the
  value modulo 2^64.
-/

namespace SqratBytecode

/-- Result type of the status-returning operations (SQRESULT). -/
inductive SQRESULT where
  | SQ_OK
  | SQ_ERROR
deriving DecidableEq

/-- The `m_data` pointer field together with the heap cell it points to. -/
inductive Alloc where
  | null
  | mem (bytes : List Nat)
  | dangling
deriving DecidableEq

/-- State of a `Sqrat::Bytecode` object: fields m_data, m_size, m_readpos. -/
structure Bytecode where
  m_data : Alloc
  m_size : Nat
  m_readpos : Nat
deriving DecidableEq

/-- The state produced by the default constructor: `m_data(0), m_size(0), m_readpos(0)`. -/
def bytecodeInit : Bytecode :=
  { m_data := Alloc.null, m_size := 0, m_readpos := 0 }

/-- The defined bytes behind `m_data` (empty for a null or dangling pointer). -/
def dataBytes (st : Bytecode) : List Nat :=
  match st.m_data with
  | Alloc.mem bs => bs
  | _ => []

/-- Well-formed (reachable, UB-free) buffer states: the pointer is not
dangling, a null pointer goes with size 0 and cursor 0, the allocation
holds exactly `m_size` defined bytes, and the read cursor is in bounds. -/
def WF (st : Bytecode) : Prop :=
  st.m_data ≠ Alloc.dangling ∧
  (st.m_data = Alloc.null → st.m_size = 0 ∧ st.m_readpos = 0) ∧
  (dataBytes st).length = st.m_size ∧
  st.m_readpos ≤ st.m_size

/-- Member function `Bytecode::Size`: returns m_size. -/
def Size (st : Bytecode) : Nat :=
  st.m_size

/-- Member function `Bytecode::Data`: returns m_data. -/
def Data (st : Bytecode) : Alloc :=
  st.m_data

/-- Member function `Bytecode::SaveToFile` (a const member: the state is returned unchanged).
`openOk` is whether `fopen(filename, "wb")` succeeds and `bytesWritten` is the
count fwrite reports. Branches follow the source: `!m_data || m_size <= 0`
fails first, then fopen, then `bytes_written == m_size` decides the result.
fwrite reading `m_size` bytes from a freed or too-small allocation is UB. -/
def saveToFile (st : Bytecode) (openOk : Bool) (bytesWritten : Nat) :
    Option (SQRESULT × Bytecode) :=
  match st.m_data with
  | Alloc.null => some (SQRESULT.SQ_ERROR, st)
  | Alloc.dangling =>
      if st.m_size = 0 then some (SQRESULT.SQ_ERROR, st)
      else if openOk then none
      else some (SQRESULT.SQ_ERROR, st)
  | Alloc.mem bs =>
      if st.m_size = 0 then some (SQRESULT.SQ_ERROR, st)
      else if openOk then
        if st.m_size ≤ bs.length then
          some (if bytesWritten = st.m_size then SQRESULT.SQ_OK else SQRESULT.SQ_ERROR, st)
        else none
      else some (SQRESULT.SQ_ERROR, st)

/-- Member function `Bytecode::LoadFromFile`. The file is `none` when fopen fails, otherwise
`some f` with contents `f`; ftell yields `f.length` and fread is modelled as
reading the whole file, so the short-read failure branch of the source is
unreachable here. Faithful to the source: `free(m_data)` happens first and
the pointer is not nulled (it dangles on the failure paths), `m_size` and
`m_readpos` are NOT touched on the fopen-failure and empty-file paths, and
`m_readpos` is never reset even on success. `free` of a dangling pointer is
a double free, hence UB. -/
def loadFromFile (st : Bytecode) (file : Option (List Nat)) :
    Option (SQRESULT × Bytecode) :=
  match st.m_data with
  | Alloc.dangling => none
  | Alloc.null =>
      match file with
      | none => some (SQRESULT.SQ_ERROR, st)
      | some f =>
          if f.length = 0 then some (SQRESULT.SQ_ERROR, st)
          else some (SQRESULT.SQ_OK,
            { m_data := Alloc.mem f, m_size := f.length, m_readpos := st.m_readpos })
  | Alloc.mem _ =>
      match file with
      | none => some (SQRESULT.SQ_ERROR, { st with m_data := Alloc.dangling })
      | some f =>
          if f.length = 0 then some (SQRESULT.SQ_ERROR, { st with m_data := Alloc.dangling })
          else some (SQRESULT.SQ_OK,
            { m_data := Alloc.mem f, m_size := f.length, m_readpos := st.m_readpos })

/-- Member function `Bytecode::SetData`: frees the old allocation (UB if already freed),
mallocs `size` bytes, copies the source into it, sets m_size, resets
m_readpos to 0 and returns SQ_OK. The source pointer plus its `size` bytes
are modelled as the list `src`. -/
def setData (st : Bytecode) (src : List Nat) : Option (SQRESULT × Bytecode) :=
  match st.m_data with
  | Alloc.dangling => none
  | _ => some (SQRESULT.SQ_OK,
      { m_data := Alloc.mem src, m_size := src.length, m_readpos := 0 })

/-- Member function `Bytecode::AppendData`: malloc on a null pointer, otherwise realloc to
`m_size + size`, then `memcpy(m_data + m_size, data, size)`, grow m_size and
return the appended count. The memcpy writes at offset `m_size`, which is in
bounds only when the allocation covers the first `m_size` bytes (guaranteed
on well-formed states); realloc of a dangling pointer is UB. -/
def appendData (st : Bytecode) (src : List Nat) : Option (Int × Bytecode) :=
  match st.m_data with
  | Alloc.null =>
      if st.m_size = 0 then
        some (Int.ofNat src.length,
          { m_data := Alloc.mem src, m_size := st.m_size + src.length,
            m_readpos := st.m_readpos })
      else none
  | Alloc.mem bs =>
      if st.m_size ≤ bs.length then
        some (Int.ofNat src.length,
          { m_data := Alloc.mem (bs.take st.m_size ++ src),
            m_size := st.m_size + src.length, m_readpos := st.m_readpos })
      else none
  | Alloc.dangling => none

/-- Member function `Bytecode::ReadData`: returns -1 when `!m_data || m_size == 0 ||
m_readpos == m_size`; otherwise `bytes_to_read = (m_readpos + size <= m_size)
? size : m_size - m_readpos` (the size_t subtraction wraps to a huge count
when `m_readpos > m_size`, making the memcpy UB), copies that many bytes from
`m_data + m_readpos` into the destination, advances the cursor and returns
the count. The copied bytes are returned as a list (the destination's new
contents). -/
def readData (st : Bytecode) (k : Nat) : Option (Int × List Nat × Bytecode) :=
  match st.m_data with
  | Alloc.null => some (-1, [], st)
  | Alloc.dangling =>
      if st.m_size = 0 ∨ st.m_readpos = st.m_size then some (-1, [], st)
      else none
  | Alloc.mem bs =>
      if st.m_size = 0 ∨ st.m_readpos = st.m_size then some (-1, [], st)
      else if st.m_size < st.m_readpos then none
      else
        let btr := if st.m_readpos + k ≤ st.m_size then k else st.m_size - st.m_readpos
        if st.m_readpos + btr ≤ bs.length then
          some (Int.ofNat btr, (bs.drop st.m_readpos).take btr,
            { st with m_readpos := st.m_readpos + btr })
        else none

/-- Repeatedly call `readData` with chunk size `k`, concatenating the bytes
delivered to the destination, until a call returns the -1 sentinel; returns
the collected bytes and the state after the last successful read. `fuel`
bounds the number of calls (`none` on exhaustion or UB). -/
def drainAux (fuel : Nat) (st : Bytecode) (k : Nat) : Option (List Nat × Bytecode) :=
  match fuel with
  | 0 => none
  | fuel + 1 =>
      match readData st k with
      | none => none
      | some (r, out, st') =>
          if r = -1 then some ([], st)
          else
            match drainAux fuel st' k with
            | none => none
            | some (rest, stf) => some (out ++ rest, stf)

/-- The cast `static_cast<size_t>(size)` applied to an SQInteger. -/
def sizeTofSQInteger (s : Int) : Nat :=
  (s % (2 : Int) ^ 64).toNat

/-- Free function `BytecodeReader`: casts the user pointer back to the
Bytecode object and forwards to `ReadData(data, static_cast<size_t>(size))`. -/
def bytecodeReader (st : Bytecode) (s : Int) : Option (Int × List Nat × Bytecode) :=
  readData st (sizeTofSQInteger s)

/-- Free function `BytecodeWriter`: casts the user pointer back to the
Bytecode object and forwards to `AppendData(data, static_cast<size_t>(size))`;
the size argument together with the data pointer is modelled as the byte
list `src`. -/
def bytecodeWriter (st : Bytecode) (src : List Nat) : Option (Int × Bytecode) :=
  appendData st src

/-- Claim C1: refuted on the code. LoadFromFile never assigns m_readpos, so a
successful load does not reset the read cursor: from a state with cursor 1,
loading a 2-byte file succeeds with size and data set from the file but the
cursor still 1, not 0. -/
theorem loadFromFile_keeps_stale_cursor :
    loadFromFile { m_data := Alloc.mem [7, 8], m_size := 2, m_readpos := 1 } (some [3, 4]) =
      some (SQRESULT.SQ_OK, { m_data := Alloc.mem [3, 4], m_size := 2, m_readpos := 1 }) ∧
    ({ m_data := Alloc.mem [3, 4], m_size := 2, m_readpos := 1 } : Bytecode).m_readpos ≠ 0 := by
  decide

/-- Claim C2: refuted on the code. The state with data [7,8,9], size 3 and
cursor 3 is well-formed (cursor = size), but a successful LoadFromFile of a
1-byte file leaves the cursor at 3 while the size becomes 1, so the invariant
read_cursor <= size is not preserved by LoadFromFile. -/
theorem loadFromFile_breaks_cursor_invariant :
    WF { m_data := Alloc.mem [7, 8, 9], m_size := 3, m_readpos := 3 } ∧
    loadFromFile { m_data := Alloc.mem [7, 8, 9], m_size := 3, m_readpos := 3 } (some [5]) =
      some (SQRESULT.SQ_OK, { m_data := Alloc.mem [5], m_size := 1, m_readpos := 3 }) ∧
    ¬ ({ m_data := Alloc.mem [5], m_size := 1, m_readpos := 3 } : Bytecode).m_readpos ≤
        ({ m_data := Alloc.mem [5], m_size := 1, m_readpos := 3 } : Bytecode).m_size := by
  refine ⟨?_, by decide, by decide⟩
  refine ⟨by decide, by decide, by decide, by decide⟩

/-- Claim C3: refuted on the code. When fopen fails, LoadFromFile has already
freed m_data without nulling the pointer and returns SQ_ERROR without touching
m_size: from a well-formed 1-byte state the result keeps m_size = 1 and a
dangling (freed but non-null) data pointer, so the buffer is not logically
empty. -/
theorem loadFromFile_openfail_not_empty :
    WF { m_data := Alloc.mem [9], m_size := 1, m_readpos := 0 } ∧
    loadFromFile { m_data := Alloc.mem [9], m_size := 1, m_readpos := 0 } none =
      some (SQRESULT.SQ_ERROR, { m_data := Alloc.dangling, m_size := 1, m_readpos := 0 }) ∧
    ({ m_data := Alloc.dangling, m_size := 1, m_readpos := 0 } : Bytecode).m_size ≠ 0 ∧
    ({ m_data := Alloc.dangling, m_size := 1, m_readpos := 0 } : Bytecode).m_data ≠ Alloc.null := by
  refine ⟨⟨by decide, by decide, by decide, by decide⟩, by decide, by decide, by decide⟩

/-- Claim C5: on every well-formed state, SaveToFile returns its state
unchanged with SQ_OK exactly when the buffer is non-empty, the file opened,
and the written count equals m_size — so it fails exactly on an empty buffer,
an open failure, or a short write; in particular it fails on the freshly
constructed buffer. -/
theorem saveToFile_spec (st : Bytecode) (openOk : Bool) (bytesWritten : Nat)
    (h : WF st) :
    saveToFile st openOk bytesWritten =
      some (if st.m_size ≠ 0 ∧ openOk = true ∧ bytesWritten = st.m_size
              then SQRESULT.SQ_OK else SQRESULT.SQ_ERROR, st) ∧
    saveToFile bytecodeInit openOk bytesWritten =
      some (SQRESULT.SQ_ERROR, bytecodeInit) := by
  obtain ⟨hnd, hnull, hlen, hle⟩ := h
  refine ⟨?_, rfl⟩
  obtain ⟨d, n, p⟩ := st
  cases d with
  | null =>
      obtain ⟨hn0, -⟩ := hnull rfl
      simp only at hn0
      subst hn0
      simp [saveToFile]
  | dangling => exact absurd rfl hnd
  | mem bs =>
      simp only [dataBytes] at hlen
      simp only at hlen hle ⊢
      by_cases hn : n = 0
      · subst hn
        simp [saveToFile]
      · cases openOk with
        | false => simp [saveToFile, hn]
        | true =>
            have hbnd : n ≤ bs.length := le_of_eq hlen.symm
            by_cases hw : bytesWritten = n
            · simp [saveToFile, hn, hbnd, hw]
            · simp [saveToFile, hn, hbnd, hw]

/-- Claim C5 witness: SaveToFile applied on a concrete well-formed one-byte
buffer with a successful open and a full write. -/
theorem saveToFile_spec_witness :
    WF { m_data := Alloc.mem [9], m_size := 1, m_readpos := 1 } ∧
    saveToFile { m_data := Alloc.mem [9], m_size := 1, m_readpos := 1 } true 1 =
      some (SQRESULT.SQ_OK, { m_data := Alloc.mem [9], m_size := 1, m_readpos := 1 }) ∧
    saveToFile bytecodeInit true 1 = some (SQRESULT.SQ_ERROR, bytecodeInit) :=
  ⟨⟨by decide, by decide, by decide, by decide⟩,
    saveToFile_spec { m_data := Alloc.mem [9], m_size := 1, m_readpos := 1 } true 1
      ⟨by decide, by decide, by decide, by decide⟩⟩

/-- Claim C8: on every well-formed prior state, SetData replaces the content
with exactly the source bytes, resets the read cursor to 0, returns SQ_OK, and
Size afterwards equals the source length. -/
theorem setData_spec (st : Bytecode) (src : List Nat) (h : WF st) :
    setData st src =
      some (SQRESULT.SQ_OK,
        { m_data := Alloc.mem src, m_size := src.length, m_readpos := 0 }) ∧
    Size { m_data := Alloc.mem src, m_size := src.length, m_readpos := 0 } = src.length := by
  obtain ⟨hnd, -, -, -⟩ := h
  obtain ⟨d, n, p⟩ := st
  cases d with
  | null => exact ⟨rfl, rfl⟩
  | dangling => exact absurd rfl hnd
  | mem bs => exact ⟨rfl, rfl⟩

/-- Claim C8 witness: SetData applied to a concrete non-empty, partly read
buffer. -/
theorem setData_spec_witness :
    WF { m_data := Alloc.mem [7], m_size := 1, m_readpos := 1 } ∧
    setData { m_data := Alloc.mem [7], m_size := 1, m_readpos := 1 } [4, 5] =
      some (SQRESULT.SQ_OK, { m_data := Alloc.mem [4, 5], m_size := 2, m_readpos := 0 }) ∧
    Size { m_data := Alloc.mem [4, 5], m_size := 2, m_readpos := 0 } = 2 :=
  ⟨⟨by decide, by decide, by decide, by decide⟩,
    setData_spec { m_data := Alloc.mem [7], m_size := 1, m_readpos := 1 } [4, 5]
      ⟨by decide, by decide, by decide, by decide⟩⟩

/-- Claim C10: SaveToFile is const — on every state and every file-system
outcome on which it is defined, it leaves data, size and read cursor
unchanged. -/
theorem saveToFile_frame (st : Bytecode) (openOk : Bool) (bytesWritten : Nat)
    (r : SQRESULT) (st' : Bytecode)
    (h : saveToFile st openOk bytesWritten = some (r, st')) : st' = st := by
  obtain ⟨d, n, p⟩ := st
  cases d <;> simp only [saveToFile] at h <;>
    (try split at h) <;> (try split at h) <;> (try split at h) <;> simp_all

/-- Claim C10 witness: SaveToFile on the freshly constructed buffer fails and
returns the state unchanged. -/
theorem saveToFile_frame_witness :
    saveToFile bytecodeInit true 0 = some (SQRESULT.SQ_ERROR, bytecodeInit) ∧
    bytecodeInit = bytecodeInit :=
  ⟨rfl, saveToFile_frame bytecodeInit true 0 SQRESULT.SQ_ERROR bytecodeInit rfl⟩

/-- Claim C4: on every well-formed state, ReadData returns the -1 sentinel
exactly when the buffer has no content or the cursor is at the end; otherwise
it copies min(requested, remaining) bytes from the cursor into the
destination, advances the cursor by that count, and returns that count, which
is never the sentinel (so a too-large request with at least one byte
remaining yields the remaining count, not -1). -/
theorem readData_spec (st : Bytecode) (k : Nat) (h : WF st) :
    (st.m_size = 0 ∨ st.m_readpos = st.m_size →
      readData st k = some (-1, [], st)) ∧
    (st.m_readpos < st.m_size →
      readData st k =
        some (Int.ofNat (min k (st.m_size - st.m_readpos)),
          ((dataBytes st).drop st.m_readpos).take (min k (st.m_size - st.m_readpos)),
          { st with m_readpos := st.m_readpos + min k (st.m_size - st.m_readpos) }) ∧
      Int.ofNat (min k (st.m_size - st.m_readpos)) ≠ -1) := by
  obtain ⟨hnd, hnull, hlen, hle⟩ := h
  rcases hd : st.m_data with _ | bs | _
  · obtain ⟨hn0, hp0⟩ := hnull hd
    refine ⟨fun _ => ?_, fun hlt => absurd hlt (by omega)⟩
    simp [readData, hd]
  · have hlenb : bs.length = st.m_size := by simpa [dataBytes, hd] using hlen
    constructor
    · intro hend
      simp only [readData, hd]
      rw [if_pos hend]
    · intro hlt
      have hc : ¬ (st.m_size = 0 ∨ st.m_readpos = st.m_size) := by omega
      have hnl : ¬ (st.m_size < st.m_readpos) := by omega
      refine ⟨?_, ?_⟩
      · simp only [readData, hd, dataBytes, if_neg hc, if_neg hnl]
        by_cases hk : st.m_readpos + k ≤ st.m_size
        · have hmin : min k (st.m_size - st.m_readpos) = k := by omega
          have hbnd : st.m_readpos + k ≤ bs.length := by omega
          rw [hmin]
          simp only [if_pos hk, if_pos hbnd]
        · have hmin : min k (st.m_size - st.m_readpos) = st.m_size - st.m_readpos := by
            omega
          have hbnd : st.m_readpos + (st.m_size - st.m_readpos) ≤ bs.length := by omega
          rw [hmin]
          simp only [if_neg hk, if_pos hbnd]
      · intro hcon
        have hcon' : ((min k (st.m_size - st.m_readpos) : Nat) : Int) = -1 := hcon
        omega
  · exact absurd hd hnd

/-- Claim C4 witness: reading 5 bytes from a 3-byte buffer whose cursor is at
1 delivers the 2 remaining bytes and returns 2, not the sentinel. -/
theorem readData_spec_witness :
    WF { m_data := Alloc.mem [1, 2, 3], m_size := 3, m_readpos := 1 } ∧
    readData { m_data := Alloc.mem [1, 2, 3], m_size := 3, m_readpos := 1 } 5 =
      some (Int.ofNat 2, [2, 3], { m_data := Alloc.mem [1, 2, 3], m_size := 3, m_readpos := 3 }) :=
  ⟨⟨by decide, by decide, by decide, by decide⟩,
    ((readData_spec { m_data := Alloc.mem [1, 2, 3], m_size := 3, m_readpos := 1 } 5
      ⟨by decide, by decide, by decide, by decide⟩).2 (by decide)).1⟩

/-- Claim C6: on every well-formed state, AppendData appends the source bytes
after the existing content, grows the size by the source length, returns the
requested size, and leaves the read cursor unchanged; the old bytes are the
unchanged prefix and the source is the trailing segment. -/
theorem appendData_spec (st : Bytecode) (src : List Nat) (h : WF st) :
    appendData st src =
      some (Int.ofNat src.length,
        { m_data := Alloc.mem (dataBytes st ++ src),
          m_size := st.m_size + src.length, m_readpos := st.m_readpos }) ∧
    (dataBytes st ++ src).drop st.m_size = src ∧
    (dataBytes st ++ src).take st.m_size = dataBytes st := by
  obtain ⟨hnd, hnull, hlen, hle⟩ := h
  rcases hd : st.m_data with _ | bs | _
  · obtain ⟨hn0, -⟩ := hnull hd
    refine ⟨?_, ?_, ?_⟩
    · simp [appendData, hd, dataBytes, hn0]
    · simp [dataBytes, hd, hn0]
    · simp [dataBytes, hd, hn0]
  · have hlenb : bs.length = st.m_size := by simpa [dataBytes, hd] using hlen
    have hbnd : st.m_size ≤ bs.length := le_of_eq hlenb.symm
    have htake : bs.take st.m_size = bs := by rw [← hlenb]; simp
    refine ⟨?_, ?_, ?_⟩
    · simp [appendData, hd, dataBytes, hbnd, htake]
    · simp only [dataBytes, hd]
      rw [← hlenb]
      simp
    · simp only [dataBytes, hd]
      rw [← hlenb]
      simp
  · exact absurd hd hnd

/-- Claim C6 witness: appending [4, 5] to a one-byte buffer with cursor 1
yields content [9, 4, 5], size 3, return value 2 and an untouched cursor. -/
theorem appendData_spec_witness :
    WF { m_data := Alloc.mem [9], m_size := 1, m_readpos := 1 } ∧
    appendData { m_data := Alloc.mem [9], m_size := 1, m_readpos := 1 } [4, 5] =
      some (Int.ofNat 2, { m_data := Alloc.mem [9, 4, 5], m_size := 3, m_readpos := 1 }) ∧
    ([9, 4, 5] : List Nat).drop 1 = [4, 5] ∧
    ([9, 4, 5] : List Nat).take 1 = [9] :=
  ⟨⟨by decide, by decide, by decide, by decide⟩,
    appendData_spec { m_data := Alloc.mem [9], m_size := 1, m_readpos := 1 } [4, 5]
      ⟨by decide, by decide, by decide, by decide⟩⟩

/-- Claim C9: the reader callback forwards to ReadData with the size cast to
size_t and returns its result (value, delivered bytes and post-state)
unchanged, and the writer callback likewise forwards to AppendData; for any
representable non-negative SQInteger the cast preserves the value, so both
adapters agree exactly with the member functions. -/
theorem adapters_forward (st : Bytecode) (s : Nat) (hs : s < 2 ^ 63) (src : List Nat) :
    bytecodeReader st (s : Int) = readData st s ∧
    bytecodeWriter st src = appendData st src := by
  refine ⟨?_, rfl⟩
  have hcast : sizeTofSQInteger (s : Int) = s := by
    have h2 : (s : Int) < (2 : Int) ^ 64 := by
      have h3 : (s : Int) < (2 : Int) ^ 63 := by exact_mod_cast hs
      calc (s : Int) < (2 : Int) ^ 63 := h3
        _ < (2 : Int) ^ 64 := by norm_num
    have h1 : (0 : Int) ≤ (s : Int) := by positivity
    simp only [sizeTofSQInteger]
    rw [Int.emod_eq_of_lt h1 h2]
    simp
  rw [bytecodeReader, hcast]

/-- Claim C9 witness: the adapters agree with the member functions on the
freshly constructed buffer with size argument 4 and payload [1]. -/
theorem adapters_forward_witness :
    (4 : Nat) < 2 ^ 63 ∧
    (bytecodeReader bytecodeInit ((4 : Nat) : Int) = readData bytecodeInit 4 ∧
     bytecodeWriter bytecodeInit [1] = appendData bytecodeInit [1]) :=
  ⟨by norm_num, adapters_forward bytecodeInit 4 (by norm_num) [1]⟩

/-- Draining a buffer whose content is S with any positive chunk size from
cursor position p delivers exactly the bytes from p on and stops with the
cursor at the end. -/
theorem drainAux_mem (S : List Nat) (k : Nat) (hk : 1 ≤ k) :
    ∀ fuel p, p ≤ S.length → S.length - p < fuel →
      drainAux fuel { m_data := Alloc.mem S, m_size := S.length, m_readpos := p } k =
        some (S.drop p,
          { m_data := Alloc.mem S, m_size := S.length, m_readpos := S.length }) := by
  intro fuel
  induction fuel with
  | zero => intro p hp hf; omega
  | succ fuel ih =>
      intro p hp hf
      by_cases hend : S.length = 0 ∨ p = S.length
      · have hpe : p = S.length := by omega
        subst hpe
        have hread : readData { m_data := Alloc.mem S, m_size := S.length, m_readpos := S.length } k = some (-1, [], { m_data := Alloc.mem S, m_size := S.length, m_readpos := S.length }) := by
          simp [readData]
        simp [drainAux, hread]
      · push_neg at hend
        obtain ⟨hS0, hpne⟩ := hend
        have hplt : p < S.length := by omega
        by_cases hkk : p + k ≤ S.length
        · have hread : readData { m_data := Alloc.mem S, m_size := S.length, m_readpos := p } k = some (Int.ofNat k, (S.drop p).take k, { m_data := Alloc.mem S, m_size := S.length, m_readpos := p + k }) := by
            simp only [readData]
            rw [if_neg (show ¬ (S.length = 0 ∨ p = S.length) by omega)]
            rw [if_neg (show ¬ (S.length < p) by omega)]
            simp only [if_pos hkk]
          have hne : ¬ (Int.ofNat k = -1) := by
            intro hcon
            have hcon' : ((k : Nat) : Int) = -1 := hcon
            omega
          have ihs := ih (p + k) (by omega) (by omega)
          simp only [drainAux, hread]
          rw [if_neg hne]
          simp only [ihs]
          have hsplit : (S.drop p).take k ++ S.drop (p + k) = S.drop p := by
            rw [← List.drop_drop]
            exact List.take_append_drop k (S.drop p)
          rw [hsplit]
        · have hbnd : p + (S.length - p) ≤ S.length := by omega
          have hread : readData { m_data := Alloc.mem S, m_size := S.length, m_readpos := p } k = some (Int.ofNat (S.length - p), (S.drop p).take (S.length - p), { m_data := Alloc.mem S, m_size := S.length, m_readpos := p + (S.length - p) }) := by
            simp only [readData]
            rw [if_neg (show ¬ (S.length = 0 ∨ p = S.length) by omega)]
            rw [if_neg (show ¬ (S.length < p) by omega)]
            simp only [if_neg hkk, if_pos hbnd]
          have hne : ¬ (Int.ofNat (S.length - p) = -1) := by
            intro hcon
            have hcon' : ((S.length - p : Nat) : Int) = -1 := hcon
            omega
          have hpl : p + (S.length - p) = S.length := by omega
          rw [hpl] at hread
          have ihs := ih S.length (le_refl _) (by omega)
          simp only [drainAux, hread]
          rw [if_neg hne]
          simp only [ihs]
          have htake : (S.drop p).take (S.length - p) = S.drop p := by
            rw [← List.length_drop]
            simp
          rw [htake]
          simp

/-- Claim C7: from any well-formed prior state, SetData(S) followed by
draining the buffer via repeated ReadData calls (any positive chunk size)
delivers exactly S, and the first ReadData after exhaustion returns the -1
sentinel. -/
theorem setData_drain_roundtrip (st : Bytecode) (S : List Nat) (k : Nat)
    (h : WF st) (hk : 1 ≤ k) :
    setData st S = some (SQRESULT.SQ_OK, { m_data := Alloc.mem S, m_size := S.length, m_readpos := 0 }) ∧
    drainAux (S.length + 1) { m_data := Alloc.mem S, m_size := S.length, m_readpos := 0 } k =
      some (S, { m_data := Alloc.mem S, m_size := S.length, m_readpos := S.length }) ∧
    readData { m_data := Alloc.mem S, m_size := S.length, m_readpos := S.length } k =
      some (-1, [], { m_data := Alloc.mem S, m_size := S.length, m_readpos := S.length }) := by
  obtain ⟨hnd, -, -, -⟩ := h
  refine ⟨?_, ?_, ?_⟩
  · rcases hd : st.m_data with _ | bs | _
    · simp [setData, hd]
    · simp [setData, hd]
    · exact absurd hd hnd
  · have hdrain := drainAux_mem S k hk (S.length + 1) 0 (Nat.zero_le _) (by omega)
    simpa using hdrain
  · simp [readData]

/-- Claim C7 witness: SetData of [1, 2, 3] on the fresh buffer, then draining
with chunk size 2, reconstructs [1, 2, 3] and the next ReadData returns -1. -/
theorem setData_drain_roundtrip_witness :
    WF bytecodeInit ∧ 1 ≤ 2 ∧
    (setData bytecodeInit [1, 2, 3] = some (SQRESULT.SQ_OK, { m_data := Alloc.mem [1, 2, 3], m_size := 3, m_readpos := 0 }) ∧
     drainAux 4 { m_data := Alloc.mem [1, 2, 3], m_size := 3, m_readpos := 0 } 2 =
       some ([1, 2, 3], { m_data := Alloc.mem [1, 2, 3], m_size := 3, m_readpos := 3 }) ∧
     readData { m_data := Alloc.mem [1, 2, 3], m_size := 3, m_readpos := 3 } 2 =
       some (-1, [], { m_data := Alloc.mem [1, 2, 3], m_size := 3, m_readpos := 3 })) :=
  ⟨⟨by decide, by decide, by decide, by decide⟩, by decide,
    setData_drain_roundtrip bytecodeInit [1, 2, 3] 2
      ⟨by decide, by decide, by decide, by decide⟩ (by decide)⟩

end SqratBytecode
